import Mathlib

/-!
Verification of the voice-activity-gated recording loop of `src/transcribe.py`
(function `transcribe_speech` and its nested helpers `collect_noise_profile`,
`apply_noise_filter`, `detect_voice`, `record`, and the monitor loop).

Modelling conventions.

Frames are modelled in the frequency domain: a `Spectrum` is the magnitude
spectrum `|fft(frame)|` of one 1024-sample frame, as a function `Fin 1024 → ℚ`
(bin `k` of `np.fft.fft` on a `CHUNK = 1024` sample frame).  All spectral
operations of the source (`np.maximum`, spectral subtraction, the band-pass
mask built from `np.fft.fftfreq`, the energy sums of `detect_voice`) are
translated bin-by-bin with exact rational arithmetic.  The inverse FFT and the
final `astype(np.int16)` re-quantisation are not modelled: since the source
reconstructs each frame from the filtered magnitude and the unchanged phase,
the magnitude spectrum of the reconstructed frame equals the filtered
magnitude exactly (up to the int16 rounding, which we omit), so the magnitude
spectrum is a faithful state for every spectral claim.

Timestamps (`time.time()` values) are rationals.  The two concurrent threads
of the source (the `record` thread and the monitor `while recording` loop,
plus the Enter-listener) are modelled by a single interleaved trace of
`Event`s processed in order, which is the standard sequentialisation of this
producer/observer pattern: the monitor only reads the shared state, the
Enter-listener only sets the `input_received` flag.
-/

/-- `CHUNK = 1024` from the source: samples per frame, hence FFT length. -/
def CHUNK : ℕ := 1024

/-- `RATE = 16000` from the source, in Hz. -/
def RATE : ℚ := 16000

/-- `MIN_FREQUENCY = 85` from the source, in Hz. -/
def MIN_FREQUENCY : ℚ := 85

/-- `MAX_FREQUENCY = 4000` from the source, in Hz. -/
def MAX_FREQUENCY : ℚ := 4000

/-- `ENERGY_THRESHOLD = 30` from the source. -/
def ENERGY_THRESHOLD : ℚ := 30

/-- `SPECTRAL_GATE = 0.3` from the source. -/
def SPECTRAL_GATE : ℚ := 3 / 10

/-- `NOISE_SAMPLES = 10` from the source: frames used for the noise profile. -/
def NOISE_SAMPLES : ℕ := 10

/-- A magnitude spectrum of one frame: one nonnegative rational per FFT bin. -/
def Spectrum : Type := Fin CHUNK → ℚ

/-- The all-zero spectrum (the magnitude spectrum of a silent frame). -/
def zeroSpec : Spectrum := fun _ => 0

/-- `|np.fft.fftfreq(1024, 1/16000)[k]|`: the absolute frequency of bin `k`.
Bins `k < 512` carry frequency `k·RATE/1024`; bins `k ≥ 512` carry the
negative frequency `(k − 1024)·RATE/1024`, whose absolute value is
`(1024 − k)·RATE/1024`. -/
def fftAbsFreq (k : Fin CHUNK) : ℚ := (min k.val (CHUNK - k.val) : ℕ) * RATE / (CHUNK : ℚ)

/-- `np.fft.fftfreq(1024, 1/16000)[k]` for `k` in the positive-frequency half
(the source only uses it for `k < 512`). -/
def posFreq (k : Fin CHUNK) : ℚ := (k.val : ℚ) * RATE / (CHUNK : ℚ)

/-- The band-pass mask of `apply_noise_filter`:
`(np.abs(freqs) >= MIN_FREQUENCY) & (np.abs(freqs) <= MAX_FREQUENCY)`. -/
def bandpass_mask (k : Fin CHUNK) : Bool :=
  decide (MIN_FREQUENCY ≤ fftAbsFreq k ∧ fftAbsFreq k ≤ MAX_FREQUENCY)

/-- `apply_noise_filter`, acting on the magnitude spectrum of a frame:
if a noise profile exists, replace each magnitude bin by
`max(magnitude − SPECTRAL_GATE·noise_profile, magnitude·0.1)` (spectral
subtraction with a 10% spectral floor), otherwise keep the magnitude; then
zero every bin outside the voice band.  The time-domain reconstruction from
the filtered magnitude and the original phase is implicit (see the header). -/
def apply_noise_filter (noise_profile : Option Spectrum) (mag : Spectrum) : Spectrum :=
  fun k =>
    if bandpass_mask k then
      match noise_profile with
      | some np => max (mag k - SPECTRAL_GATE * np k) (mag k * (1 / 10))
      | none => mag k
    else 0

/-- The voice-band bins of `detect_voice`: positive-frequency half
(`magnitude[:512]`) restricted by
`(pos_freqs >= MIN_FREQUENCY) & (pos_freqs <= MAX_FREQUENCY)`. -/
def voiceBins : Finset (Fin CHUNK) :=
  Finset.univ.filter fun k =>
    k.val < CHUNK / 2 ∧ MIN_FREQUENCY ≤ posFreq k ∧ posFreq k ≤ MAX_FREQUENCY

/-- The fundamental-band bins of `detect_voice`: positive-frequency half
restricted by `(pos_freqs >= 85) & (pos_freqs <= 255)` (literals in source). -/
def fundamentalBins : Finset (Fin CHUNK) :=
  Finset.univ.filter fun k =>
    k.val < CHUNK / 2 ∧ (85 : ℚ) ≤ posFreq k ∧ posFreq k ≤ (255 : ℚ)

/-- `voice_energy = np.sum(magnitude[voice_mask])` of `detect_voice`. -/
def voice_energy (m : Spectrum) : ℚ := ∑ k in voiceBins, m k

/-- `fundamental_energy = np.sum(magnitude[fundamental_mask])` of `detect_voice`. -/
def fundamental_energy (m : Spectrum) : ℚ := ∑ k in fundamentalBins, m k

/-- `detect_voice`: filter the raw frame with the current noise profile, then
declare voice-active iff the filtered frame's voice-band energy exceeds
`ENERGY_THRESHOLD * 100` or its fundamental-band energy exceeds
`ENERGY_THRESHOLD * 50`. -/
def detect_voice (noise_profile : Option Spectrum) (mag : Spectrum) : Bool :=
  let fm := apply_noise_filter noise_profile mag
  decide (ENERGY_THRESHOLD * 100 < voice_energy fm) ||
    decide (ENERGY_THRESHOLD * 50 < fundamental_energy fm)

/-- One call of `collect_noise_profile`: initialise the profile to zero if
absent, add this frame's magnitude spectrum, bump the counter, and divide by
the counter once it reaches `NOISE_SAMPLES`. -/
def collect_noise_profile (noise_profile : Option Spectrum) (noise_frames_collected : ℕ)
    (mag : Spectrum) : Option Spectrum × ℕ :=
  let base : Spectrum := noise_profile.getD zeroSpec
  let acc : Spectrum := fun k => base k + mag k
  let cnt : ℕ := noise_frames_collected + 1
  if NOISE_SAMPLES ≤ cnt then (some fun k => acc k / (cnt : ℚ), cnt) else (some acc, cnt)

/-- The per-frame noise-profile update of `record`:
`collect_noise_profile` runs only while fewer than `NOISE_SAMPLES` frames
have been collected. -/
def noise_update (noise_profile : Option Spectrum) (noise_frames_collected : ℕ)
    (mag : Spectrum) : Option Spectrum × ℕ :=
  if noise_frames_collected < NOISE_SAMPLES then
    collect_noise_profile noise_profile noise_frames_collected mag
  else (noise_profile, noise_frames_collected)

/-!
Session layer: the shared `state` dictionary, the `record` thread body, the
Enter listener and the monitor loop of `transcribe_speech`, sequentialised
over a trace of timed events.
-/

/-- The shared `state` dictionary of `transcribe_speech` (minus `start_time`,
which is passed separately as the session start timestamp). -/
structure RecState where
  speech_started : Bool
  silence_start : Option ℚ
  last_speech_time : Option ℚ
deriving DecidableEq

/-- The per-frame state update of `record` (lines 254-261 of the source):
on a voice-active frame set `speech_started`, refresh `last_speech_time`,
clear `silence_start`; on a silent frame start the silence clock only when
speech has started and the clock is not already running. -/
def update_state (s : RecState) (voiced : Bool) (now : ℚ) : RecState :=
  if voiced then ⟨true, none, some now⟩
  else if s.speech_started = true ∧ s.silence_start = none then
    ⟨s.speech_started, some now, s.last_speech_time⟩
  else s

/-- The whole mutable state of one session: the shared `state` dictionary,
the `frames` list of filtered frames, the noise profile and its frame
counter, and the Enter-listener's `input_received` flag. -/
structure SessState where
  state : RecState
  frames : List Spectrum
  noise_profile : Option Spectrum
  noise_frames_collected : ℕ
  input_received : Bool

/-- Session state right after the stream is opened: empty `frames`, no noise
profile, `speech_started` false, no Enter received. -/
def init_state : SessState :=
  ⟨⟨false, none, none⟩, [], none, 0, false⟩

/-- The voice-activity classification the `record` body computes for a frame
arriving in state `s`: `detect_voice` with the noise profile as updated by
this very frame's `collect_noise_profile` call. -/
def classify_frame (s : SessState) (mag : Spectrum) : Bool :=
  detect_voice (noise_update s.noise_profile s.noise_frames_collected mag).1 mag

/-- One iteration of the `record` thread body for a frame with magnitude
spectrum `mag` read at time `now`: update the noise profile, append the
filtered (not the raw) frame to `frames`, classify, update `state`. -/
def frame_step (s : SessState) (mag : Spectrum) (now : ℚ) : SessState :=
  let nu := noise_update s.noise_profile s.noise_frames_collected mag
  { state := update_state s.state (detect_voice nu.1 mag) now
    frames := s.frames ++ [apply_noise_filter nu.1 mag]
    noise_profile := nu.1
    noise_frames_collected := nu.2
    input_received := s.input_received }

/-- The three ways the monitor loop can break out of `while recording`. -/
inductive StopReason
  | no_speech
  | post_silence
  | manual
deriving DecidableEq

/-- `state['silence_start'] is not None and now - state['silence_start'] > silence_timeout`. -/
def silence_timed_out (r : RecState) (now timeout : ℚ) : Bool :=
  match r.silence_start with
  | some ts => decide (timeout < now - ts)
  | none => false

/-- One check of the monitor loop body, in source order: no-speech timeout
first, then post-speech silence timeout, then the Enter flag. -/
def check_stop (r : RecState) (start now timeout : ℚ) (inp : Bool) : Option StopReason :=
  if ¬ r.speech_started = true ∧ timeout < now - start then some .no_speech
  else if r.speech_started = true ∧ silence_timed_out r now timeout = true then some .post_silence
  else if inp then some .manual
  else none

/-- One observable event of a session: the `record` thread reads a frame, the
monitor loop polls the shared state, or the user presses Enter. -/
inductive Event
  | frame (mag : Spectrum) (t : ℚ)
  | poll (t : ℚ)
  | enter (t : ℚ)

/-- Run a session over an interleaved event trace.  A `frame` event runs one
`record` iteration; an `enter` event sets `input_received`; a `poll` event
runs one monitor check and, if a stop condition fires, ends the session
returning the stop reason, the frames captured so far, and the stop time. -/
def run_loop (s : SessState) (start timeout : ℚ) :
    List Event → Option (StopReason × List Spectrum × ℚ)
  | [] => none
  | Event.frame m t :: r => run_loop (frame_step s m t) start timeout r
  | Event.poll t :: r =>
    match check_stop s.state start t timeout s.input_received with
    | some reason => some (reason, s.frames, t)
    | none => run_loop s start timeout r
  | Event.enter _ :: r =>
    run_loop { s with input_received := true } start timeout r

/-- The state transformer of a trace, ignoring stop conditions (polls read
the state but never write it). -/
def fold_events (s : SessState) : List Event → SessState
  | [] => s
  | Event.frame m t :: r => fold_events (frame_step s m t) r
  | Event.poll _ :: r => fold_events s r
  | Event.enter _ :: r => fold_events { s with input_received := true } r

/-- Every frame event of the trace is classified non-voice-active by the
session (threading the evolving noise profile). -/
def no_voiced (s : SessState) : List Event → Bool
  | [] => true
  | Event.frame m t :: r => !(classify_frame s m) && no_voiced (frame_step s m t) r
  | Event.poll _ :: r => no_voiced s r
  | Event.enter _ :: r => no_voiced { s with input_received := true } r

/-- The trace contains no Enter keypress. -/
def no_enter : List Event → Bool
  | [] => true
  | Event.enter _ :: _ => false
  | _ :: r => no_enter r

/-- The trace consists of monitor polls only. -/
def polls_only : List Event → Bool
  | [] => true
  | Event.poll _ :: r => polls_only r
  | _ => false

/-- Default value of the `silence_timeout` parameter of `transcribe_speech`. -/
def default_silence_timeout : ℚ := 5

/-- The audio source as the session sees it: `pyaudio` either opens the
stream or raises.  The source code never queries the device's native sample
rate; it is carried here only so that claims about rate mismatches can be
stated. -/
structure AudioSource where
  native_rate : ℚ
  open_ok : Bool

/-- The outcomes of `transcribe_speech` up to the point where the captured
buffer is handed to the external recognition API: the microphone failed to
open (`return None, "Error opening microphone: ..."`), the session ended
with no frames (`return None, "No audio captured"`), or a non-empty capture
proceeds to recognition. -/
inductive SessionOutcome
  | mic_error
  | empty_capture
  | captured (frames : List Spectrum) (reason : StopReason)
  | still_running

/-- `transcribe_speech` down to the capture boundary: open the stream (fail
with the microphone error if `pyaudio` raises), run the session loop, and
fail with `"No audio captured"` iff the loop ended with an empty `frames`. -/
def transcribe_speech (src : AudioSource) (start timeout : ℚ) (trace : List Event) :
    SessionOutcome :=
  if src.open_ok = false then .mic_error
  else
    match run_loop init_state start timeout trace with
    | none => .still_running
    | some (reason, fr, _) => if fr.isEmpty = true then .empty_capture else .captured fr reason

/-- The frame list of a `captured` outcome. -/
def captured_frames : SessionOutcome → List Spectrum
  | .captured fr _ => fr
  | _ => []

/-- Whether an outcome is a successful (non-empty) capture. -/
def is_captured : SessionOutcome → Bool
  | .captured _ _ => true
  | _ => false

/-!
Fold characterisations used by several claims: the noise-profile evolution
and the filtered-frame list are functions of the raw frame spectra alone.
-/

/-- `collect_noise_profile` state after a list of raw frame spectra. -/
def noise_fold : Option Spectrum × ℕ → List Spectrum → Option Spectrum × ℕ
  | st, [] => st
  | (np, c), m :: r => noise_fold (noise_update np c m) r

/-- The filtered frames `record` appends for a list of raw frame spectra,
threading the noise-profile state. -/
def filter_all : Option Spectrum × ℕ → List Spectrum → List Spectrum
  | _, [] => []
  | (np, c), m :: r =>
    apply_noise_filter (noise_update np c m).1 m ::
      filter_all (noise_update np c m) r

/-- The raw magnitude spectra of the frame events of a trace, in order. -/
def frame_mags : List Event → List Spectrum
  | [] => []
  | Event.frame m _ :: r => m :: frame_mags r
  | _ :: r => frame_mags r

/-- Bin-wise sum of a list of spectra. -/
def sum_spec (ms : List Spectrum) : Spectrum :=
  fun k => (ms.map fun m => m k).sum

/-- The claim's hypothesis, decidably: every bin's gated subtraction lands at
or below the `0.1·magnitude` spectral floor. -/
def below_spectral_floor (np m : Spectrum) : Bool :=
  decide (∀ k, m k - SPECTRAL_GATE * np k ≤ m k * (1 / 10))

/-- The claim's hypothesis, decidably: no energy outside the voice band. -/
def outside_band_zero (m : Spectrum) : Bool :=
  decide (∀ k, bandpass_mask k = false → m k = 0)

/-- The `state` dictionary after a sequence of `(voiced, timestamp)` frame
updates, starting from the fresh session state. -/
def steps_fold (L : List (Bool × ℚ)) : RecState :=
  L.foldl (fun s p => update_state s p.1 p.2) ⟨false, none, none⟩

/-- Modelled from the spec: the monitor check of §4.1 step 5 with the two
cutoffs `initialSilenceTimeoutSeconds` and `postSpeechSilenceTimeoutSeconds`
as independent parameters (the source has no such pair). -/
def check_stop_spec (r : RecState) (start now : ℚ)
    (initial_silence_timeout post_speech_silence_timeout : ℚ) (inp : Bool) :
    Option StopReason :=
  if ¬ r.speech_started = true ∧ initial_silence_timeout < now - start then some .no_speech
  else if r.speech_started = true ∧ silence_timed_out r now post_speech_silence_timeout = true then
    some .post_silence
  else if inp then some .manual
  else none

/-- Bin 10 of the FFT: frequency `10·16000/1024 = 156.25 Hz`, inside both the
voice band and the fundamental band (nearest bin to the 150 Hz scenario). -/
def bin10 : Fin CHUNK := ⟨10, by norm_num [CHUNK]⟩

/-- Bin 0 of the FFT: frequency 0 Hz, outside the voice band. -/
def bin0 : Fin CHUNK := ⟨0, by norm_num [CHUNK]⟩

/-- A constant noise profile with value 100 in every bin. -/
def constNoise : Spectrum := fun _ => 100

/-- A spectrum with all its energy in a single bin. -/
def spike (i : Fin CHUNK) (v : ℚ) : Spectrum := fun k => if k = i then v else 0

/- Sanity examples (spectral layer). -/

example : bandpass_mask ⟨10, by norm_num [CHUNK]⟩ = true := by
  norm_num [bandpass_mask, fftAbsFreq, CHUNK, RATE, MIN_FREQUENCY, MAX_FREQUENCY]

example : bandpass_mask ⟨0, by norm_num [CHUNK]⟩ = false := by
  norm_num [bandpass_mask, fftAbsFreq, CHUNK, RATE, MIN_FREQUENCY, MAX_FREQUENCY]

example : (⟨10, by norm_num [CHUNK]⟩ : Fin CHUNK) ∈ voiceBins := by
  norm_num [voiceBins, Finset.mem_filter, posFreq, CHUNK, RATE, MIN_FREQUENCY, MAX_FREQUENCY]

example : (⟨10, by norm_num [CHUNK]⟩ : Fin CHUNK) ∈ fundamentalBins := by
  norm_num [fundamentalBins, Finset.mem_filter, posFreq, CHUNK, RATE]

example : (⟨300, by norm_num [CHUNK]⟩ : Fin CHUNK) ∉ fundamentalBins := by
  norm_num [fundamentalBins, Finset.mem_filter, posFreq, CHUNK, RATE]


/-!
Shared helper facts: concrete bins, spike spectra, and evaluations of the
spectral definitions on them.
-/

lemma bandpass_bin10 : bandpass_mask bin10 = true := by
  norm_num [bandpass_mask, fftAbsFreq, bin10, CHUNK, RATE, MIN_FREQUENCY, MAX_FREQUENCY]

lemma bandpass_bin0 : bandpass_mask bin0 = false := by
  norm_num [bandpass_mask, fftAbsFreq, bin0, CHUNK, RATE, MIN_FREQUENCY, MAX_FREQUENCY]

lemma bin10_mem_voiceBins : bin10 ∈ voiceBins := by
  norm_num [voiceBins, Finset.mem_filter, posFreq, bin10, CHUNK, RATE, MIN_FREQUENCY,
    MAX_FREQUENCY]

lemma bin10_mem_fundamentalBins : bin10 ∈ fundamentalBins := by
  norm_num [fundamentalBins, Finset.mem_filter, posFreq, bin10, CHUNK, RATE]

lemma voice_energy_spike (i : Fin CHUNK) (v : ℚ) :
    voice_energy (spike i v) = if i ∈ voiceBins then v else 0 := by
  classical
  simp only [voice_energy, spike]
  exact Finset.sum_ite_eq' voiceBins i fun _ => v

lemma fundamental_energy_spike (i : Fin CHUNK) (v : ℚ) :
    fundamental_energy (spike i v) = if i ∈ fundamentalBins then v else 0 := by
  classical
  simp only [fundamental_energy, spike]
  exact Finset.sum_ite_eq' fundamentalBins i fun _ => v

lemma voice_energy_zero : voice_energy zeroSpec = 0 := by
  simp [voice_energy, zeroSpec]

lemma fundamental_energy_zero : fundamental_energy zeroSpec = 0 := by
  simp [fundamental_energy, zeroSpec]

/-- Filtering a silent frame against a nonnegative profile yields silence. -/
lemma apply_noise_filter_zeroSpec (np : Spectrum) (h : ∀ k, 0 ≤ np k) :
    apply_noise_filter (some np) zeroSpec = zeroSpec := by
  funext k
  by_cases hb : bandpass_mask k
  · have h0 : (0 : ℚ) ≤ SPECTRAL_GATE * np k := by
      have := h k
      simp only [SPECTRAL_GATE]
      nlinarith
    simp [apply_noise_filter, zeroSpec, hb]
    exact h0
  · simp [apply_noise_filter, zeroSpec, hb]

/-- A silent frame is never classified voice-active (nonnegative profile). -/
lemma detect_voice_zeroSpec (np : Spectrum) (h : ∀ k, 0 ≤ np k) :
    detect_voice (some np) zeroSpec = false := by
  simp only [detect_voice, apply_noise_filter_zeroSpec np h, voice_energy_zero,
    fundamental_energy_zero, ENERGY_THRESHOLD]
  norm_num

/-!
Claim C3: the voice-activity decision rule.
-/

/-- Claim C3: a frame is classified voice-active iff the voice-band energy of
the filtered frame exceeds `ENERGY_THRESHOLD * 100` or the fundamental-band
energy exceeds `ENERGY_THRESHOLD * 50`; in particular, a frame whose
voice-band energy is at most `ENERGY_THRESHOLD * 100` but whose
fundamental-band energy exceeds `ENERGY_THRESHOLD * 50` is voice-active. -/
theorem C3_detect_voice_iff (np : Option Spectrum) (mag : Spectrum) :
    (detect_voice np mag = true ↔
      ENERGY_THRESHOLD * 100 < voice_energy (apply_noise_filter np mag) ∨
        ENERGY_THRESHOLD * 50 < fundamental_energy (apply_noise_filter np mag)) ∧
    (voice_energy (apply_noise_filter np mag) ≤ ENERGY_THRESHOLD * 100 →
      ENERGY_THRESHOLD * 50 < fundamental_energy (apply_noise_filter np mag) →
        detect_voice np mag = true) := by
  constructor
  · simp [detect_voice]
  · intro _ h2
    simp only [detect_voice, Bool.or_eq_true, decide_eq_true_eq]
    exact Or.inr h2

/-- Claim C3 witness: a 2000-magnitude spike at bin 10 (156.25 Hz, inside the
fundamental band) against a zero noise profile has voice-band energy
2000 ≤ 3000 yet fundamental-band energy 2000 > 1500, and is classified
voice-active. -/
theorem C3_witness :
    voice_energy (apply_noise_filter (some zeroSpec) (spike bin10 2000)) ≤
        ENERGY_THRESHOLD * 100 ∧
    ENERGY_THRESHOLD * 50 <
        fundamental_energy (apply_noise_filter (some zeroSpec) (spike bin10 2000)) ∧
    detect_voice (some zeroSpec) (spike bin10 2000) = true := by
  have hfil : apply_noise_filter (some zeroSpec) (spike bin10 2000) = spike bin10 2000 := by
    funext k
    by_cases h : k = bin10
    · subst h
      simp [apply_noise_filter, spike, zeroSpec, bandpass_bin10, SPECTRAL_GATE]
      norm_num
    · by_cases hb : bandpass_mask k <;>
        simp [apply_noise_filter, spike, zeroSpec, h, hb, SPECTRAL_GATE]
  have h1 : voice_energy (apply_noise_filter (some zeroSpec) (spike bin10 2000)) ≤
      ENERGY_THRESHOLD * 100 := by
    rw [hfil, voice_energy_spike]
    simp [bin10_mem_voiceBins, ENERGY_THRESHOLD]
    norm_num
  have h2 : ENERGY_THRESHOLD * 50 <
      fundamental_energy (apply_noise_filter (some zeroSpec) (spike bin10 2000)) := by
    rw [hfil, fundamental_energy_spike]
    simp [bin10_mem_fundamentalBins, ENERGY_THRESHOLD]
    norm_num
  exact ⟨h1, h2, (C3_detect_voice_iff (some zeroSpec) (spike bin10 2000)).2 h1 h2⟩

/-!
Claim C4: the shape of the noise-suppression step and that `record` appends
the filtered frame.
-/

/-- Claim C4: with a noise profile present, every voice-band bin of the
filtered frame is `max(magnitude − SPECTRAL_GATE·profile, magnitude·0.1)` —
never below the `0.1·magnitude` floor — every out-of-band bin is zeroed, and
one `record` iteration appends exactly this filtered frame (not the raw one)
to the captured `frames`. -/
theorem C4_noise_filter_shape (np mag : Spectrum) (s : SessState) (t : ℚ) :
    (∀ k, bandpass_mask k = true →
      apply_noise_filter (some np) mag k
          = max (mag k - SPECTRAL_GATE * np k) (mag k * (1 / 10)) ∧
        mag k * (1 / 10) ≤ apply_noise_filter (some np) mag k) ∧
    (∀ npo : Option Spectrum, ∀ k, bandpass_mask k = false →
      apply_noise_filter npo mag k = 0) ∧
    (frame_step s mag t).frames =
      s.frames ++
        [apply_noise_filter (noise_update s.noise_profile s.noise_frames_collected mag).1 mag] := by
  refine ⟨fun k hk => ?_, fun npo k hk => ?_, rfl⟩
  · constructor
    · simp [apply_noise_filter, hk]
    · simp only [apply_noise_filter, hk, if_true]
      exact le_max_right _ _
  · simp [apply_noise_filter, hk]

/-- Claim C4 witness: concrete evaluation at the spike frame `spike bin10 1`,
the constant profile 100, bin 10 (in band) and bin 0 (out of band), starting
from the initial session state. -/
theorem C4_witness :
    bandpass_mask bin10 = true ∧
    bandpass_mask bin0 = false ∧
    apply_noise_filter (some constNoise) (spike bin10 1) bin10
        = max (spike bin10 1 bin10 - SPECTRAL_GATE * constNoise bin10)
            (spike bin10 1 bin10 * (1 / 10)) ∧
    apply_noise_filter (some constNoise) (spike bin10 1) bin0 = 0 ∧
    (frame_step init_state (spike bin10 1) 0).frames =
      init_state.frames ++
        [apply_noise_filter (noise_update none 0 (spike bin10 1)).1 (spike bin10 1)] := by
  refine ⟨bandpass_bin10, bandpass_bin0, ?_, ?_, ?_⟩
  · exact ((C4_noise_filter_shape constNoise (spike bin10 1) init_state 0).1
      bin10 bandpass_bin10).1
  · exact (C4_noise_filter_shape constNoise (spike bin10 1) init_state 0).2.1
      (some constNoise) bin0 bandpass_bin0
  · exact (C4_noise_filter_shape constNoise (spike bin10 1) init_state 0).2.2

/-!
Claim C9: idempotence of the noise filter.  The claim is false on the code:
whenever the magnitude is entirely at the spectral floor, `apply_noise_filter`
multiplies every in-band bin by the floor factor `0.1` again, so a second
application shrinks the frame instead of leaving it unchanged; it is a no-op
only on the zero frame.
-/

/-- Claim C9 counterexample: the already-suppressed frame `spike bin10 1`
(entirely at the spectral floor against the constant-100 profile, zero
outside the voice band) is changed by a further application of
`apply_noise_filter`: bin 10 drops from 1 to 1/10. -/
theorem C9_counterexample :
    below_spectral_floor constNoise (spike bin10 1) = true ∧
    outside_band_zero (spike bin10 1) = true ∧
    apply_noise_filter (some constNoise) (spike bin10 1) ≠ spike bin10 1 := by
  refine ⟨?_, ?_, ?_⟩
  · rw [below_spectral_floor, decide_eq_true_eq]
    intro k
    by_cases h : k = bin10
    · simp [spike, constNoise, SPECTRAL_GATE, h]
      norm_num
    · simp [spike, constNoise, SPECTRAL_GATE, h]
  · rw [outside_band_zero, decide_eq_true_eq]
    intro k hk
    by_cases h : k = bin10
    · subst h
      rw [bandpass_bin10] at hk
      cases hk
    · simp [spike, h]
  · intro h
    have h10 := congrFun h bin10
    rw [apply_noise_filter] at h10
    simp only [bandpass_bin10, if_true, spike, constNoise, SPECTRAL_GATE,
      if_pos rfl] at h10
    norm_num at h10

/-- Claim C9 (amended): on a frame that is entirely at the spectral floor
against the profile and carries no out-of-band energy, `apply_noise_filter`
multiplies every bin by the floor factor `0.1` — so re-running the
suppression is not a no-op; it fixes the frame iff the frame is zero. -/
theorem C9_floor_rescales (np m : Spectrum)
    (h1 : below_spectral_floor np m = true)
    (h2 : outside_band_zero m = true) :
    apply_noise_filter (some np) m = (fun k => m k * (1 / 10)) ∧
    (apply_noise_filter (some np) m = m ↔ ∀ k, m k = 0) := by
  rw [below_spectral_floor, decide_eq_true_eq] at h1
  rw [outside_band_zero, decide_eq_true_eq] at h2
  have hval : apply_noise_filter (some np) m = fun k => m k * (1 / 10) := by
    funext k
    by_cases hb : bandpass_mask k
    · simp only [apply_noise_filter, hb, if_true]
      exact max_eq_right (h1 k)
    · have hm : m k = 0 := h2 k (by simpa using hb)
      simp [apply_noise_filter, hb, hm]
  refine ⟨hval, ?_, ?_⟩
  · intro h k
    have := congrFun (hval.symm.trans h) k
    linarith
  · intro h
    funext k
    rw [congrFun hval k, h k, zero_mul]

/-- Claim C9 witness for the amended statement: the concrete frame
`spike bin10 1` against the constant-100 profile satisfies both hypotheses,
and the filter rescales it to `spike bin10 (1/10)` rather than fixing it. -/
theorem C9_witness :
    below_spectral_floor constNoise (spike bin10 1) = true ∧
    apply_noise_filter (some constNoise) (spike bin10 1) =
      (fun k => spike bin10 1 k * (1 / 10)) := by
  have hbf : below_spectral_floor constNoise (spike bin10 1) = true := by
    rw [below_spectral_floor, decide_eq_true_eq]
    intro k
    by_cases h : k = bin10
    · simp [spike, constNoise, SPECTRAL_GATE, h]
      norm_num
    · simp [spike, constNoise, SPECTRAL_GATE, h]
  have hob : outside_band_zero (spike bin10 1) = true := by
    rw [outside_band_zero, decide_eq_true_eq]
    intro k hk
    by_cases h : k = bin10
    · subst h
      rw [bandpass_bin10] at hk
      cases hk
    · simp [spike, h]
  exact ⟨hbf, (C9_floor_rescales constNoise (spike bin10 1) hbf hob).1⟩

/-!
Claim C6: the `RecordingState` invariant and the per-frame update equations.
-/

lemma steps_fold_append (L : List (Bool × ℚ)) (x : Bool × ℚ) :
    steps_fold (L ++ [x]) = update_state (steps_fold L) x.1 x.2 := by
  simp [steps_fold, List.foldl_append]

lemma steps_fold_invariant (L : List (Bool × ℚ)) :
    (steps_fold L).silence_start.isSome = true →
      (steps_fold L).speech_started = true ∧ ∃ t : ℚ, L.getLast? = some (false, t) := by
  induction L using List.reverseRecOn with
  | nil =>
    intro h
    simp [steps_fold] at h
  | append_singleton L x ih =>
    rcases x with ⟨b, t⟩
    intro h
    rw [steps_fold_append] at h ⊢
    cases b with
    | true => simp [update_state] at h
    | false =>
      by_cases hc : (steps_fold L).speech_started = true ∧ (steps_fold L).silence_start = none
      · refine ⟨?_, t, by simp⟩
        simp [update_state, hc]
      · rw [show update_state (steps_fold L) false t = steps_fold L from by
          simp [update_state, hc]] at h ⊢
        exact ⟨(ih h).1, t, by simp⟩

/-- Claim C6: (i) a voice-active frame sets `speech_started`, refreshes
`last_speech_time` to the frame time and clears `silence_start`; (ii) a
silent frame sets `silence_start` to the frame time exactly when speech has
started and `silence_start` was unset, and otherwise leaves the state
unchanged; (iii) after any frame sequence, `silence_start` is set only if
`speech_started` is true and the most recent frame was not voice-active. -/
theorem C6_recording_state_invariant (s : RecState) (now : ℚ) :
    update_state s true now = ⟨true, none, some now⟩ ∧
    update_state s false now =
      (if s.speech_started = true ∧ s.silence_start = none then
        ⟨s.speech_started, some now, s.last_speech_time⟩
      else s) ∧
    (∀ L : List (Bool × ℚ), (steps_fold L).silence_start.isSome = true →
      (steps_fold L).speech_started = true ∧ ∃ t : ℚ, L.getLast? = some (false, t)) :=
  ⟨by simp [update_state], by simp [update_state], fun L => steps_fold_invariant L⟩

/-- Claim C6 witness: a voiced frame at time 1 then a silent frame at time 2
yield `silence_start = 2` with `speech_started` true and a silent last frame,
and the per-step equations evaluate on the fresh state. -/
theorem C6_witness :
    (steps_fold [(true, 1), (false, 2)]).silence_start.isSome = true ∧
    (steps_fold [(true, 1), (false, 2)]).speech_started = true ∧
    (∃ t : ℚ, [((true : Bool), (1 : ℚ)), (false, 2)].getLast? = some (false, t)) ∧
    update_state ⟨false, none, none⟩ true 1 = ⟨true, none, some 1⟩ := by
  have hs : (steps_fold [(true, 1), (false, 2)]).silence_start.isSome = true := by
    simp [steps_fold, update_state]
  have hinv := (C6_recording_state_invariant ⟨false, none, none⟩ 1).2.2
    [(true, 1), (false, 2)] hs
  exact ⟨hs, hinv.1, hinv.2, (C6_recording_state_invariant ⟨false, none, none⟩ 1).1⟩

/-!
Claim C10: the two silence cutoffs are a single parameter in the code.
-/

/-- Claim C10: `transcribe_speech` has a single `silence_timeout` parameter
(default 5) used both as the initial no-speech cutoff and as the post-speech
silence cutoff: the monitor check of the code coincides with the two-cutoff
specification check exactly on the diagonal, so the two cutoffs cannot be
configured independently. -/
theorem C10_single_timeout (r : RecState) (start now timeout : ℚ) (inp : Bool) :
    check_stop r start now timeout inp = check_stop_spec r start now timeout timeout inp ∧
    default_silence_timeout = 5 :=
  ⟨rfl, rfl⟩

/-!
Claim C7: the noise-profile lifecycle.
-/

lemma noise_fold_append (xs ys : List Spectrum) (st : Option Spectrum × ℕ) :
    noise_fold st (xs ++ ys) = noise_fold (noise_fold st xs) ys := by
  induction xs generalizing st with
  | nil => rfl
  | cons m r ih =>
    rcases st with ⟨np, c⟩
    simp only [List.cons_append, noise_fold]
    exact ih _

lemma noise_fold_frozen (ms : List Spectrum) (np : Option Spectrum) (c : ℕ)
    (h : ¬ c < NOISE_SAMPLES) : noise_fold (np, c) ms = (np, c) := by
  induction ms with
  | nil => rfl
  | cons m r ih =>
    simp only [noise_fold, noise_update, if_neg h]
    exact ih

lemma noise_fold_cons (st : Option Spectrum × ℕ) (m : Spectrum) (r : List Spectrum) :
    noise_fold st (m :: r) = noise_fold (noise_update st.1 st.2 m) r := by
  rcases st with ⟨np, c⟩
  rfl

lemma noise_fold_nil (st : Option Spectrum × ℕ) : noise_fold st [] = st := by
  rcases st with ⟨np, c⟩
  rfl

lemma noise_fold_single (st : Option Spectrum × ℕ) (m : Spectrum) :
    noise_fold st [m] = noise_update st.1 st.2 m := by
  rw [noise_fold_cons, noise_fold_nil]

lemma filter_all_cons (st : Option Spectrum × ℕ) (m : Spectrum) (r : List Spectrum) :
    filter_all st (m :: r) =
      apply_noise_filter (noise_update st.1 st.2 m).1 m ::
        filter_all (noise_update st.1 st.2 m) r := by
  rcases st with ⟨np, c⟩
  rfl

lemma noise_fold_acc (ms : List Spectrum) :
    ∀ (acc : Spectrum) (c : ℕ), 1 ≤ c → c < NOISE_SAMPLES →
      c + ms.length ≤ NOISE_SAMPLES →
      noise_fold (some acc, c) ms =
        (if c + ms.length = NOISE_SAMPLES then
          (some fun k => (acc k + sum_spec ms k) / (NOISE_SAMPLES : ℚ), NOISE_SAMPLES)
        else (some fun k => acc k + sum_spec ms k, c + ms.length)) := by
  induction ms with
  | nil =>
    intro acc c h1 h2 h3
    simp only [List.length_nil, Nat.add_zero]
    rw [if_neg (by omega)]
    have hfun : (fun k => acc k + sum_spec ([] : List Spectrum) k) = acc := by
      funext k
      simp [sum_spec]
    rw [hfun]
    rfl
  | cons m r ih =>
    intro acc c h1 h2 h3
    rw [noise_fold_cons]
    simp only [noise_update, if_pos h2, collect_noise_profile, Option.getD_some]
    by_cases hten : NOISE_SAMPLES ≤ c + 1
    · have hc : c + 1 = NOISE_SAMPLES := by omega
      have hr : r = [] := by
        have hl := h3
        simp only [List.length_cons] at hl
        have : r.length = 0 := by omega
        exact List.length_eq_zero.mp this
      subst hr
      rw [if_pos hten, noise_fold_nil]
      rw [if_pos (by simp only [List.length_cons, List.length_nil]; omega)]
      have hfun : (fun k => (acc k + sum_spec [m] k) / (NOISE_SAMPLES : ℚ)) =
          fun k => (acc k + m k) / ((c + 1 : ℕ) : ℚ) := by
        funext k
        rw [hc]
        simp only [sum_spec, List.map_cons, List.map_nil, List.sum_cons, List.sum_nil]
        ring
      rw [hfun, hc]
    · rw [if_neg hten]
      rw [ih (fun k => acc k + m k) (c + 1) (by omega) (by omega)
        (by simp only [List.length_cons] at h3; omega)]
      by_cases hfin : c + 1 + r.length = NOISE_SAMPLES
      · rw [if_pos hfin, if_pos (by simp only [List.length_cons]; omega)]
        have hfun : (fun k => (acc k + sum_spec (m :: r) k) / (NOISE_SAMPLES : ℚ)) =
            fun k => (acc k + m k + sum_spec r k) / (NOISE_SAMPLES : ℚ) := by
          funext k
          simp only [sum_spec, List.map_cons, List.sum_cons]
          ring
        rw [hfun]
      · rw [if_neg hfin, if_neg (by simp only [List.length_cons]; omega)]
        have hfun : (fun k => acc k + sum_spec (m :: r) k) =
            fun k => acc k + m k + sum_spec r k := by
          funext k
          simp only [sum_spec, List.map_cons, List.sum_cons]
          ring
        rw [hfun]
        have hn : c + (m :: r).length = c + 1 + r.length := by
          simp only [List.length_cons]
          omega
        rw [hn]

/-- The profile after at least `NOISE_SAMPLES` frames: the bin-wise average
of the first `NOISE_SAMPLES` raw magnitude spectra, with the counter frozen
at `NOISE_SAMPLES`. -/
lemma noise_fold_full (L : List Spectrum) (h : NOISE_SAMPLES ≤ L.length) :
    noise_fold (none, 0) L =
      (some fun k => sum_spec (L.take NOISE_SAMPLES) k / (NOISE_SAMPLES : ℚ),
        NOISE_SAMPLES) := by
  rcases L with _ | ⟨m, rest⟩
  · simp [NOISE_SAMPLES] at h
  · have hrest : 9 ≤ rest.length := by
      simp only [List.length_cons, NOISE_SAMPLES] at h ⊢
      omega
    have hlen9 : (rest.take 9).length = 9 := by
      rw [List.length_take]
      omega
    have step1 : noise_fold (none, 0) (m :: rest) =
        noise_fold (some fun k => zeroSpec k + m k, 1) rest := by
      rw [noise_fold_cons]
      simp [noise_update, collect_noise_profile, NOISE_SAMPLES, zeroSpec]
    rw [step1]
    conv_lhs => rw [(List.take_append_drop 9 rest).symm]
    rw [noise_fold_append]
    rw [noise_fold_acc (rest.take 9) (fun k => zeroSpec k + m k) 1 (by omega)
      (by simp [NOISE_SAMPLES]) (by rw [hlen9]; simp [NOISE_SAMPLES])]
    rw [if_pos (by rw [hlen9]; simp [NOISE_SAMPLES])]
    rw [noise_fold_frozen _ _ _ (by omega)]
    have hfun : (fun k => sum_spec ((m :: rest).take NOISE_SAMPLES) k / (NOISE_SAMPLES : ℚ)) =
        fun k => ((fun k => zeroSpec k + m k) k + sum_spec (rest.take 9) k) /
          (NOISE_SAMPLES : ℚ) := by
      funext k
      rw [show (m :: rest).take NOISE_SAMPLES = m :: rest.take 9 by
        simp [NOISE_SAMPLES, List.take_succ_cons]]
      simp only [sum_spec, List.map_cons, List.sum_cons, zeroSpec]
      ring
    rw [hfun]

lemma filter_all_append (xs ys : List Spectrum) (st : Option Spectrum × ℕ) :
    filter_all st (xs ++ ys) = filter_all st xs ++ filter_all (noise_fold st xs) ys := by
  induction xs generalizing st with
  | nil => rfl
  | cons m r ih =>
    rw [List.cons_append, filter_all_cons, filter_all_cons, noise_fold_cons, ih,
      List.cons_append]

/-- Claim C7: (i) once at least `NOISE_SAMPLES` frames have arrived the noise
profile equals the average of the first `NOISE_SAMPLES` raw spectra and never
changes again (the fold over the whole list equals the fold over its first
`NOISE_SAMPLES` elements); (ii) every frame of the session — including the
first `NOISE_SAMPLES` — is suppressed with the profile state current at its
own arrival. -/
theorem C7_noise_profile_lifecycle (L : List Spectrum) :
    (NOISE_SAMPLES ≤ L.length →
      noise_fold (none, 0) L =
        (some fun k => sum_spec (L.take NOISE_SAMPLES) k / (NOISE_SAMPLES : ℚ),
          NOISE_SAMPLES) ∧
      noise_fold (none, 0) L = noise_fold (none, 0) (L.take NOISE_SAMPLES)) ∧
    (∀ (pre : List Spectrum) (m : Spectrum) (post : List Spectrum), L = pre ++ m :: post →
      filter_all (none, 0) L =
        filter_all (none, 0) pre ++
          apply_noise_filter
              (noise_update (noise_fold (none, 0) pre).1 (noise_fold (none, 0) pre).2 m).1 m ::
            filter_all (noise_fold (none, 0) (pre ++ [m])) post) := by
  constructor
  · intro h
    have h1 := noise_fold_full L h
    have h2 := noise_fold_full (L.take NOISE_SAMPLES)
      (by rw [List.length_take]; omega)
    rw [List.take_take, min_self] at h2
    exact ⟨h1, h1.trans h2.symm⟩
  · intro pre m post hL
    subst hL
    rw [filter_all_append, filter_all_cons, noise_fold_append, noise_fold_single]

/-- Claim C7 witness: eleven silent frames — the profile after all eleven
equals the average of the first ten and equals the fold of the first ten
alone; the first frame is filtered with the profile as updated by that very
frame. -/
theorem C7_witness :
    (NOISE_SAMPLES ≤ (List.replicate 11 zeroSpec).length) ∧
    noise_fold (none, 0) (List.replicate 11 zeroSpec) =
      (some fun k =>
        sum_spec ((List.replicate 11 zeroSpec).take NOISE_SAMPLES) k / (NOISE_SAMPLES : ℚ),
        NOISE_SAMPLES) ∧
    filter_all (none, 0) (List.replicate 11 zeroSpec) =
      filter_all (none, 0) [] ++
        apply_noise_filter
            (noise_update (noise_fold (none, 0) []).1 (noise_fold (none, 0) []).2 zeroSpec).1
            zeroSpec ::
          filter_all (noise_fold (none, 0) ([] ++ [zeroSpec])) (List.replicate 10 zeroSpec) := by
  have hlen : NOISE_SAMPLES ≤ (List.replicate 11 zeroSpec).length := by
    simp [NOISE_SAMPLES]
  have hdec : List.replicate 11 zeroSpec = [] ++ zeroSpec :: List.replicate 10 zeroSpec := by
    simp [List.replicate_succ]
  exact ⟨hlen,
    ((C7_noise_profile_lifecycle (List.replicate 11 zeroSpec)).1 hlen).1,
    (C7_noise_profile_lifecycle (List.replicate 11 zeroSpec)).2 [] zeroSpec
      (List.replicate 10 zeroSpec) hdec⟩

/-!
Run-loop equations and structural lemmas for the session claims.
-/

/-- `frame_step` written out as an explicit record literal (kept as a
rewriting lemma so that field projections reduce structurally). -/
lemma frame_step_def (s : SessState) (m : Spectrum) (t : ℚ) :
    frame_step s m t =
      ⟨update_state s.state
          (detect_voice (noise_update s.noise_profile s.noise_frames_collected m).1 m) t,
        s.frames ++
          [apply_noise_filter (noise_update s.noise_profile s.noise_frames_collected m).1 m],
        (noise_update s.noise_profile s.noise_frames_collected m).1,
        (noise_update s.noise_profile s.noise_frames_collected m).2,
        s.input_received⟩ := rfl

lemma run_loop_frame (s : SessState) (start timeout : ℚ) (m : Spectrum) (t : ℚ)
    (r : List Event) :
    run_loop s start timeout (Event.frame m t :: r) =
      run_loop (frame_step s m t) start timeout r := rfl

lemma run_loop_enter (s : SessState) (start timeout t : ℚ) (r : List Event) :
    run_loop s start timeout (Event.enter t :: r) =
      run_loop { s with input_received := true } start timeout r := rfl

lemma run_loop_poll_some (s : SessState) (start timeout t : ℚ) (r : List Event)
    (reason : StopReason)
    (h : check_stop s.state start t timeout s.input_received = some reason) :
    run_loop s start timeout (Event.poll t :: r) = some (reason, s.frames, t) := by
  simp [run_loop, h]

lemma run_loop_poll_none (s : SessState) (start timeout t : ℚ) (r : List Event)
    (h : check_stop s.state start t timeout s.input_received = none) :
    run_loop s start timeout (Event.poll t :: r) = run_loop s start timeout r := by
  simp [run_loop, h]

lemma fold_events_append (a b : List Event) (s : SessState) :
    fold_events s (a ++ b) = fold_events (fold_events s a) b := by
  induction a generalizing s with
  | nil => rfl
  | cons e r ih =>
    cases e <;> simp only [List.cons_append, fold_events] <;> exact ih _

lemma run_loop_append_none (a b : List Event) (s : SessState) (start timeout : ℚ)
    (h : run_loop s start timeout a = none) :
    run_loop s start timeout (a ++ b) =
      run_loop (fold_events s a) start timeout b := by
  induction a generalizing s with
  | nil => rfl
  | cons e r ih =>
    cases e with
    | frame m t =>
      rw [List.cons_append, run_loop_frame]
      rw [run_loop_frame] at h
      exact ih _ h
    | poll t =>
      cases hcs : check_stop s.state start t timeout s.input_received with
      | some reason =>
        rw [run_loop_poll_some s start timeout t r reason hcs] at h
        cases h
      | none =>
        rw [run_loop_poll_none s start timeout t r hcs] at h
        rw [List.cons_append, run_loop_poll_none s start timeout t (r ++ b) hcs]
        simp only [fold_events]
        exact ih s h
    | enter t =>
      rw [List.cons_append, run_loop_enter]
      rw [run_loop_enter] at h
      exact ih _ h

/-- A frame classified non-voice-active leaves `speech_started`,
`silence_start` and `input_received` as follows: with speech not yet started
the `state` dictionary is unchanged; generally `input_received` and the noise
fields evolve independently of the classification. -/
lemma frame_step_state_unvoiced (s : SessState) (m : Spectrum) (t : ℚ)
    (h : classify_frame s m = false) :
    (frame_step s m t).state = update_state s.state false t ∧
    (frame_step s m t).input_received = s.input_received := by
  constructor
  · rw [frame_step_def]
    rw [show detect_voice (noise_update s.noise_profile s.noise_frames_collected m).1 m
      = false from h]
  · rw [frame_step_def]

lemma frame_step_state_voiced (s : SessState) (m : Spectrum) (t : ℚ)
    (h : classify_frame s m = true) :
    (frame_step s m t).state = ⟨true, none, some t⟩ ∧
    (frame_step s m t).input_received = s.input_received := by
  constructor
  · rw [frame_step_def]
    rw [show detect_voice (noise_update s.noise_profile s.noise_frames_collected m).1 m
      = true from h]
    simp [update_state]
  · rw [frame_step_def]

/-- With speech not yet started, an unvoiced frame leaves the `state`
dictionary untouched. -/
lemma update_state_unvoiced_nostart (r : RecState) (t : ℚ)
    (h : r.speech_started = false) : update_state r false t = r := by
  simp [update_state, h]

/-- With speech started and the silence clock already running, an unvoiced
frame leaves the `state` dictionary untouched. -/
lemma update_state_unvoiced_silence (r : RecState) (t ts : ℚ)
    (h : r.silence_start = some ts) : update_state r false t = r := by
  simp [update_state, h]

/-- `check_stop` returns `none` before speech while the elapsed time is
within the timeout and no Enter was received. -/
lemma check_stop_none_nostart (r : RecState) (start now timeout : ℚ)
    (h1 : r.speech_started = false) (h2 : ¬ timeout < now - start) :
    check_stop r start now timeout false = none := by
  simp [check_stop, h1, h2, silence_timed_out]

/-- `check_stop` fires the no-speech branch as soon as the elapsed time
exceeds the timeout with speech not yet started, whatever the Enter flag. -/
lemma check_stop_no_speech (r : RecState) (start now timeout : ℚ) (inp : Bool)
    (h1 : r.speech_started = false) (h2 : timeout < now - start) :
    check_stop r start now timeout inp = some .no_speech := by
  simp [check_stop, h1, h2]

lemma fold_events_nil (s : SessState) : fold_events s [] = s := rfl

/-!
Claim C1: the no-speech timeout.
-/

lemma run_no_speech_aux (start timeout : ℚ) (tr : List Event) :
    ∀ s : SessState,
      no_voiced s tr = true → no_enter tr = true →
      s.state.speech_started = false → s.input_received = false →
      (∃ t, Event.poll t ∈ tr ∧ timeout < t - start) →
      ∃ t a b, tr = a ++ Event.poll t :: b ∧ timeout < t - start ∧
        (∀ u, Event.poll u ∈ a → u - start ≤ timeout) ∧
        run_loop s start timeout tr =
          some (.no_speech, (fold_events s a).frames, t) := by
  induction tr with
  | nil =>
    intro s _ _ _ _ hex
    rcases hex with ⟨t, ht, _⟩
    simp at ht
  | cons e r ih =>
    intro s hnv hne hsp hin hex
    cases e with
    | frame m t =>
      have hand := hnv
      rw [show no_voiced s (Event.frame m t :: r)
            = (!(classify_frame s m) && no_voiced (frame_step s m t) r) from rfl,
        Bool.and_eq_true, Bool.not_eq_true'] at hand
      obtain ⟨hcl, hnr⟩ := hand
      have hstate := frame_step_state_unvoiced s m t hcl
      have hsp2 : (frame_step s m t).state.speech_started = false := by
        rw [hstate.1, update_state_unvoiced_nostart s.state t hsp]
        exact hsp
      have hin2 : (frame_step s m t).input_received = false := by
        rw [hstate.2]
        exact hin
      have hex2 : ∃ t0, Event.poll t0 ∈ r ∧ timeout < t0 - start := by
        rcases hex with ⟨t0, ht0, hlt⟩
        rcases List.mem_cons.mp ht0 with heq | hmem
        · simp at heq
        · exact ⟨t0, hmem, hlt⟩
      obtain ⟨t0, a, b, hdec, hlt, hmin, hrun⟩ :=
        ih (frame_step s m t) hnr hne hsp2 hin2 hex2
      refine ⟨t0, Event.frame m t :: a, b, by rw [hdec, List.cons_append], hlt, ?_, ?_⟩
      · intro u hu
        rcases List.mem_cons.mp hu with heq | hm
        · simp at heq
        · exact hmin u hm
      · rw [run_loop_frame, hrun]
        rfl
    | poll t =>
      by_cases hlt : timeout < t - start
      · refine ⟨t, [], r, rfl, hlt, by simp, ?_⟩
        rw [run_loop_poll_some s start timeout t r .no_speech
          (by rw [hin]; exact check_stop_no_speech s.state start t timeout false hsp hlt)]
        rfl
      · have hcs : check_stop s.state start t timeout s.input_received = none := by
          rw [hin]
          exact check_stop_none_nostart s.state start t timeout hsp hlt
        have hex2 : ∃ t0, Event.poll t0 ∈ r ∧ timeout < t0 - start := by
          rcases hex with ⟨t0, ht0, hlt0⟩
          rcases List.mem_cons.mp ht0 with heq | hmem
          · injection heq with h
            subst h
            exact absurd hlt0 hlt
          · exact ⟨t0, hmem, hlt0⟩
        obtain ⟨t0, a, b, hdec, hlt0, hmin, hrun⟩ := ih s hnv hne hsp hin hex2
        refine ⟨t0, Event.poll t :: a, b, by rw [hdec, List.cons_append], hlt0, ?_, ?_⟩
        · intro u hu
          rcases List.mem_cons.mp hu with heq | hm
          · injection heq with h
            subst h
            exact le_of_not_lt hlt
          · exact hmin u hm
        · rw [run_loop_poll_none s start timeout t r hcs, hrun]
          rfl
    | enter t =>
      rw [show no_enter (Event.enter t :: r) = false from rfl] at hne
      cases hne

/-- Claim C1: in a session where no frame is ever classified voice-active and
no Enter is pressed, as soon as the trace contains a monitor poll past the
timeout, the session terminates with the no-speech outcome at the first poll
whose elapsed time exceeds `timeout` — every earlier poll is within the
timeout, so it never stops before the cutoff. -/
theorem C1_no_speech_timeout (trace : List Event) (start timeout : ℚ)
    (hnv : no_voiced init_state trace = true) (hne : no_enter trace = true)
    (hex : ∃ t, Event.poll t ∈ trace ∧ timeout < t - start) :
    ∃ t a b, trace = a ++ Event.poll t :: b ∧ timeout < t - start ∧
      (∀ u, Event.poll u ∈ a → u - start ≤ timeout) ∧
      run_loop init_state start timeout trace =
        some (.no_speech, (fold_events init_state a).frames, t) :=
  run_no_speech_aux start timeout trace init_state hnv hne rfl rfl hex

/-- Claim C1 witness: a silent session polled at time 6 with a 5-second
timeout stops with the no-speech outcome at time 6. -/
theorem C1_witness :
    no_voiced init_state [Event.poll 6] = true ∧
    no_enter [Event.poll 6] = true ∧
    (∃ t a b, [Event.poll 6] = a ++ Event.poll t :: b ∧ (5 : ℚ) < t - 0 ∧
      (∀ u, Event.poll u ∈ a → u - 0 ≤ 5) ∧
      run_loop init_state 0 5 [Event.poll 6] =
        some (.no_speech, (fold_events init_state a).frames, t)) := by
  refine ⟨rfl, rfl, C1_no_speech_timeout [Event.poll 6] 0 5 rfl rfl ⟨6, ?_, by norm_num⟩⟩
  simp

/-!
Claim C2: successful end-of-utterance capture with no frame dropped or
duplicated.
-/

lemma no_enter_append (a b : List Event) :
    no_enter (a ++ b) = (no_enter a && no_enter b) := by
  induction a with
  | nil => simp [no_enter]
  | cons e r ih =>
    cases e with
    | frame m t => rw [List.cons_append]; exact ih
    | poll t => rw [List.cons_append]; exact ih
    | enter t => rfl

lemma frame_mags_append (a b : List Event) :
    frame_mags (a ++ b) = frame_mags a ++ frame_mags b := by
  induction a with
  | nil => rfl
  | cons e r ih =>
    cases e with
    | frame m t =>
      rw [List.cons_append, show frame_mags (Event.frame m t :: (r ++ b))
        = m :: frame_mags (r ++ b) from rfl, ih]
      rfl
    | poll t => rw [List.cons_append]; exact ih
    | enter t => rw [List.cons_append]; exact ih

lemma filter_all_length (ms : List Spectrum) :
    ∀ st : Option Spectrum × ℕ, (filter_all st ms).length = ms.length := by
  induction ms with
  | nil => intro st; rfl
  | cons m r ih =>
    intro st
    rw [filter_all_cons, List.length_cons, List.length_cons, ih]

lemma list_isEmpty_false (l : List Spectrum) (h : l ≠ []) : l.isEmpty = false := by
  cases l with
  | nil => exact absurd rfl h
  | cons x r => rfl

lemma fold_events_input (tr : List Event) :
    ∀ s : SessState, no_enter tr = true →
      (fold_events s tr).input_received = s.input_received := by
  induction tr with
  | nil => intro s _; rfl
  | cons e r ih =>
    intro s hne
    cases e with
    | frame m t =>
      rw [show fold_events s (Event.frame m t :: r) = fold_events (frame_step s m t) r
        from rfl, ih (frame_step s m t) hne, frame_step_def]
    | poll t => exact ih s hne
    | enter t =>
      rw [show no_enter (Event.enter t :: r) = false from rfl] at hne
      cases hne

lemma fold_events_polls_only (b0 : List Event) :
    ∀ s : SessState, polls_only b0 = true → fold_events s b0 = s := by
  induction b0 with
  | nil => intro s _; rfl
  | cons e r ih =>
    intro s hp
    cases e with
    | frame m t =>
      rw [show polls_only (Event.frame m t :: r) = false from rfl] at hp
      cases hp
    | poll t => exact ih s hp
    | enter t =>
      rw [show polls_only (Event.enter t :: r) = false from rfl] at hp
      cases hp

lemma fold_events_frames (tr : List Event) :
    ∀ s : SessState, (fold_events s tr).frames =
      s.frames ++ filter_all (s.noise_profile, s.noise_frames_collected) (frame_mags tr) := by
  induction tr with
  | nil =>
    intro s
    rw [show frame_mags ([] : List Event) = [] from rfl]
    rw [show filter_all (s.noise_profile, s.noise_frames_collected) [] = [] from rfl]
    simp [fold_events]
  | cons e r ih =>
    intro s
    cases e with
    | frame m t =>
      rw [show fold_events s (Event.frame m t :: r) = fold_events (frame_step s m t) r
        from rfl, ih (frame_step s m t)]
      rw [show frame_mags (Event.frame m t :: r) = m :: frame_mags r from rfl,
        filter_all_cons]
      rw [show (frame_step s m t).frames = s.frames ++
        [apply_noise_filter (noise_update s.noise_profile s.noise_frames_collected m).1 m]
        from rfl]
      simp only [List.append_assoc, List.singleton_append]
      rfl
    | poll t => exact ih s
    | enter t => exact ih { s with input_received := true }

lemma check_stop_none_started (r : RecState) (start now timeout : ℚ)
    (h1 : r.speech_started = true) (h2 : r.silence_start = none) :
    check_stop r start now timeout false = none := by
  simp [check_stop, h1, silence_timed_out, h2]

lemma check_stop_none_silence_within (r : RecState) (start now timeout ts : ℚ)
    (h1 : r.speech_started = true) (h2 : r.silence_start = some ts)
    (h3 : ¬ timeout < now - ts) :
    check_stop r start now timeout false = none := by
  simp [check_stop, h1, silence_timed_out, h2, h3]

lemma check_stop_post_silence (r : RecState) (start now timeout ts : ℚ) (inp : Bool)
    (h1 : r.speech_started = true) (h2 : r.silence_start = some ts)
    (h3 : timeout < now - ts) :
    check_stop r start now timeout inp = some .post_silence := by
  simp [check_stop, h1, silence_timed_out, h2, h3]

lemma run_skip_polls (b0 : List Event) (start timeout : ℚ) :
    ∀ (s : SessState) (rest : List Event), polls_only b0 = true →
      s.state.speech_started = true → s.state.silence_start = none →
      s.input_received = false →
      run_loop s start timeout (b0 ++ rest) = run_loop s start timeout rest := by
  induction b0 with
  | nil => intro s rest _ _ _ _; rfl
  | cons e r ih =>
    intro s rest hp hsp hsil hin
    cases e with
    | frame m t =>
      rw [show polls_only (Event.frame m t :: r) = false from rfl] at hp
      cases hp
    | poll t =>
      rw [List.cons_append, run_loop_poll_none s start timeout t (r ++ rest)
        (by rw [hin]; exact check_stop_none_started s.state start t timeout hsp hsil)]
      exact ih s rest hp hsp hsil hin
    | enter t =>
      rw [show polls_only (Event.enter t :: r) = false from rfl] at hp
      cases hp

lemma run_post_silence_aux (start timeout ts : ℚ) (tr : List Event) :
    ∀ s : SessState,
      s.state.speech_started = true → s.state.silence_start = some ts →
      s.input_received = false →
      no_voiced s tr = true → no_enter tr = true →
      (∃ t, Event.poll t ∈ tr ∧ timeout < t - ts) →
      ∃ t a b, tr = a ++ Event.poll t :: b ∧ timeout < t - ts ∧
        (∀ u, Event.poll u ∈ a → u - ts ≤ timeout) ∧
        run_loop s start timeout tr =
          some (.post_silence, (fold_events s a).frames, t) := by
  induction tr with
  | nil =>
    intro s _ _ _ _ _ hex
    rcases hex with ⟨t, ht, _⟩
    simp at ht
  | cons e r ih =>
    intro s hsp hsil hin hnv hne hex
    cases e with
    | frame m t =>
      have hand := hnv
      rw [show no_voiced s (Event.frame m t :: r)
            = (!(classify_frame s m) && no_voiced (frame_step s m t) r) from rfl,
        Bool.and_eq_true, Bool.not_eq_true'] at hand
      obtain ⟨hcl, hnr⟩ := hand
      have hstate := frame_step_state_unvoiced s m t hcl
      have hkeep : (frame_step s m t).state = s.state := by
        rw [hstate.1]
        exact update_state_unvoiced_silence s.state t ts hsil
      have hex2 : ∃ t0, Event.poll t0 ∈ r ∧ timeout < t0 - ts := by
        rcases hex with ⟨t0, ht0, hlt⟩
        rcases List.mem_cons.mp ht0 with heq | hmem
        · simp at heq
        · exact ⟨t0, hmem, hlt⟩
      obtain ⟨t0, a, b, hdec, hlt, hmin, hrun⟩ :=
        ih (frame_step s m t) (by rw [hkeep]; exact hsp) (by rw [hkeep]; exact hsil)
          (by rw [hstate.2]; exact hin) hnr hne hex2
      refine ⟨t0, Event.frame m t :: a, b, by rw [hdec, List.cons_append], hlt, ?_, ?_⟩
      · intro u hu
        rcases List.mem_cons.mp hu with heq | hm
        · simp at heq
        · exact hmin u hm
      · rw [run_loop_frame, hrun]
        rfl
    | poll t =>
      by_cases hlt : timeout < t - ts
      · refine ⟨t, [], r, rfl, hlt, by simp, ?_⟩
        rw [run_loop_poll_some s start timeout t r .post_silence
          (by rw [hin]
              exact check_stop_post_silence s.state start t timeout ts false hsp hsil hlt)]
        rfl
      · have hcs : check_stop s.state start t timeout s.input_received = none := by
          rw [hin]
          exact check_stop_none_silence_within s.state start t timeout ts hsp hsil hlt
        have hex2 : ∃ t0, Event.poll t0 ∈ r ∧ timeout < t0 - ts := by
          rcases hex with ⟨t0, ht0, hlt0⟩
          rcases List.mem_cons.mp ht0 with heq | hmem
          · injection heq with h
            subst h
            exact absurd hlt0 hlt
          · exact ⟨t0, hmem, hlt0⟩
        obtain ⟨t0, a, b, hdec, hlt0, hmin, hrun⟩ := ih s hsp hsil hin hnv hne hex2
        refine ⟨t0, Event.poll t :: a, b, by rw [hdec, List.cons_append], hlt0, ?_, ?_⟩
        · intro u hu
          rcases List.mem_cons.mp hu with heq | hm
          · injection heq with h
            subst h
            exact le_of_not_lt hlt
          · exact hmin u hm
        · rw [run_loop_poll_none s start timeout t r hcs, hrun]
          rfl
    | enter t =>
      rw [show no_enter (Event.enter t :: r) = false from rfl] at hne
      cases hne

set_option maxRecDepth 4000
set_option maxHeartbeats 1000000

lemma fold_events_frame_cons (s : SessState) (m : Spectrum) (t : ℚ) (r : List Event) :
    fold_events s (Event.frame m t :: r) = fold_events (frame_step s m t) r := rfl

lemma no_voiced_frame_cons (s : SessState) (m : Spectrum) (t : ℚ) (r : List Event) :
    no_voiced s (Event.frame m t :: r)
      = (!(classify_frame s m) && no_voiced (frame_step s m t) r) := rfl

/-- Claim C2: in a session where a voice-active frame occurs (after a
prefix `A` during which the monitor never stops) and afterwards no frame is
voice-active, once a poll arrives more than `timeout` after the first silent
frame, the session stops with the post-silence outcome at the first such
poll, and the captured audio is exactly the noise-filtered image of every
frame read up to that poll — silent frames before and after the voiced one
included, in capture order, none dropped, none duplicated — and
`transcribe_speech` returns it as a successful capture. -/
theorem C2_post_silence_capture
    (A b0 b1 : List Event) (mv m1 : Spectrum) (tv t1 start timeout : ℚ) (src : AudioSource)
    (hopen : src.open_ok = true)
    (hA : run_loop init_state start timeout A = none)
    (hAv : classify_frame (fold_events init_state A) mv = true)
    (hb0 : polls_only b0 = true)
    (hnv : no_voiced (fold_events init_state (A ++ Event.frame mv tv :: b0))
      (Event.frame m1 t1 :: b1) = true)
    (hne : no_enter (A ++ Event.frame mv tv :: (b0 ++ Event.frame m1 t1 :: b1)) = true)
    (hex : ∃ t, Event.poll t ∈ b1 ∧ timeout < t - t1) :
    ∃ t a rest, b1 = a ++ Event.poll t :: rest ∧ timeout < t - t1 ∧
      (∀ u, Event.poll u ∈ a → u - t1 ≤ timeout) ∧
      run_loop init_state start timeout
          (A ++ Event.frame mv tv :: (b0 ++ Event.frame m1 t1 :: b1)) =
        some (.post_silence,
          filter_all (none, 0)
            (frame_mags (A ++ Event.frame mv tv :: (b0 ++ Event.frame m1 t1 :: a))), t) ∧
      transcribe_speech src start timeout
          (A ++ Event.frame mv tv :: (b0 ++ Event.frame m1 t1 :: b1)) =
        .captured
          (filter_all (none, 0)
            (frame_mags (A ++ Event.frame mv tv :: (b0 ++ Event.frame m1 t1 :: a))))
          .post_silence := by
  have hsplit1 : no_enter A = true ∧ no_enter (b0 ++ Event.frame m1 t1 :: b1) = true := by
    have h := hne
    rw [no_enter_append] at h
    rw [show no_enter (Event.frame mv tv :: (b0 ++ Event.frame m1 t1 :: b1))
      = no_enter (b0 ++ Event.frame m1 t1 :: b1) from rfl] at h
    rw [Bool.and_eq_true] at h
    exact h
  have hneb1 : no_enter b1 = true := by
    have h := hsplit1.2
    rw [no_enter_append, Bool.and_eq_true] at h
    have h2 := h.2
    rw [show no_enter (Event.frame m1 t1 :: b1) = no_enter b1 from rfl] at h2
    exact h2
  have hstate2 := frame_step_state_voiced (fold_events init_state A) mv tv hAv
  have hin1 : (fold_events init_state A).input_received = false :=
    (fold_events_input A init_state hsplit1.1).trans rfl
  have hfoldb0 : fold_events init_state (A ++ Event.frame mv tv :: b0)
      = frame_step (fold_events init_state A) mv tv := by
    rw [fold_events_append, fold_events_frame_cons]
    exact fold_events_polls_only b0 _ hb0
  have hand : classify_frame (frame_step (fold_events init_state A) mv tv) m1 = false ∧
      no_voiced (frame_step (frame_step (fold_events init_state A) mv tv) m1 t1) b1
        = true := by
    have h := hnv
    rw [hfoldb0] at h
    rw [no_voiced_frame_cons, Bool.and_eq_true, Bool.not_eq_true'] at h
    exact h
  have hst3 := frame_step_state_unvoiced (frame_step (fold_events init_state A) mv tv)
    m1 t1 hand.1
  have hs3state : (frame_step (frame_step (fold_events init_state A) mv tv) m1 t1).state
      = ⟨true, some t1, some tv⟩ := by
    rw [hst3.1, hstate2.1]
    simp [update_state]
  have hin3 : (frame_step (frame_step (fold_events init_state A) mv tv) m1 t1).input_received
      = false := by
    rw [hst3.2, hstate2.2]
    exact hin1
  obtain ⟨t, a, rest, hdec, hlt, hmin, hrun3⟩ :=
    run_post_silence_aux start timeout t1 b1
      (frame_step (frame_step (fold_events init_state A) mv tv) m1 t1)
      (by rw [hs3state]) (by rw [hs3state]) hin3 hand.2 hneb1 hex
  have hrun1 : run_loop init_state start timeout
      (A ++ Event.frame mv tv :: (b0 ++ Event.frame m1 t1 :: b1)) =
      run_loop (frame_step (fold_events init_state A) mv tv) start timeout
        (b0 ++ Event.frame m1 t1 :: b1) := by
    rw [run_loop_append_none A _ init_state start timeout hA, run_loop_frame]
  have hrun2 : run_loop (frame_step (fold_events init_state A) mv tv) start timeout
      (b0 ++ Event.frame m1 t1 :: b1) =
      run_loop (frame_step (fold_events init_state A) mv tv) start timeout
        (Event.frame m1 t1 :: b1) :=
    run_skip_polls b0 start timeout (frame_step (fold_events init_state A) mv tv) _ hb0
      (by rw [hstate2.1]) (by rw [hstate2.1]) (by rw [hstate2.2]; exact hin1)
  have hfoldall : fold_events init_state
      (A ++ Event.frame mv tv :: (b0 ++ Event.frame m1 t1 :: a))
      = fold_events (frame_step (frame_step (fold_events init_state A) mv tv) m1 t1) a := by
    rw [fold_events_append, fold_events_frame_cons, fold_events_append,
      fold_events_polls_only b0 _ hb0, fold_events_frame_cons]
  have hframes : (fold_events
        (frame_step (frame_step (fold_events init_state A) mv tv) m1 t1) a).frames
      = filter_all (none, 0)
          (frame_mags (A ++ Event.frame mv tv :: (b0 ++ Event.frame m1 t1 :: a))) := by
    rw [← hfoldall, fold_events_frames]
    rfl
  have hrunfull : run_loop init_state start timeout
      (A ++ Event.frame mv tv :: (b0 ++ Event.frame m1 t1 :: b1)) =
      some (.post_silence,
        filter_all (none, 0)
          (frame_mags (A ++ Event.frame mv tv :: (b0 ++ Event.frame m1 t1 :: a))), t) := by
    rw [hrun1, hrun2, run_loop_frame, hrun3, hframes]
  have hnonempty : filter_all (none, 0)
      (frame_mags (A ++ Event.frame mv tv :: (b0 ++ Event.frame m1 t1 :: a))) ≠ [] := by
    have hlen := filter_all_length
      (frame_mags (A ++ Event.frame mv tv :: (b0 ++ Event.frame m1 t1 :: a))) (none, 0)
    intro hcontra
    rw [hcontra, frame_mags_append] at hlen
    rw [show frame_mags (Event.frame mv tv :: (b0 ++ Event.frame m1 t1 :: a))
      = mv :: frame_mags (b0 ++ Event.frame m1 t1 :: a) from rfl] at hlen
    rw [List.length_append, List.length_cons, List.length_nil] at hlen
    omega
  have htrans : transcribe_speech src start timeout
      (A ++ Event.frame mv tv :: (b0 ++ Event.frame m1 t1 :: b1)) =
      .captured
        (filter_all (none, 0)
          (frame_mags (A ++ Event.frame mv tv :: (b0 ++ Event.frame m1 t1 :: a))))
        .post_silence := by
    simp only [transcribe_speech, hopen, hrunfull]
    rw [list_isEmpty_false _ hnonempty]
    simp
  exact ⟨t, a, rest, hdec, hlt, hmin, hrunfull, htrans⟩

lemma classify_voiced_witness : classify_frame init_state (spike bin10 10000) = true := by
  have hfil : apply_noise_filter (some fun k => zeroSpec k + spike bin10 10000 k)
      (spike bin10 10000) = spike bin10 7000 := by
    funext k
    by_cases h : k = bin10
    · subst h
      simp [apply_noise_filter, bandpass_bin10, spike, zeroSpec, SPECTRAL_GATE]
      norm_num
    · by_cases hb : bandpass_mask k <;>
        simp [apply_noise_filter, hb, spike, zeroSpec, h, SPECTRAL_GATE]
  show detect_voice (some fun k => zeroSpec k + spike bin10 10000 k) (spike bin10 10000) = true
  simp only [detect_voice, hfil, voice_energy_spike, fundamental_energy_spike]
  rw [if_pos bin10_mem_voiceBins, if_pos bin10_mem_fundamentalBins]
  norm_num [ENERGY_THRESHOLD]

lemma classify_silent_witness :
    classify_frame (frame_step init_state (spike bin10 10000) 2) zeroSpec = false := by
  show detect_voice
      (some fun k => (zeroSpec k + spike bin10 10000 k) + zeroSpec k) zeroSpec = false
  refine detect_voice_zeroSpec _ (fun k => ?_)
  by_cases h : k = bin10 <;> simp [spike, zeroSpec, h]

/-- Claim C2 witness: silence until time 2, a voiced frame at time 2, a
silent frame at time 3, a poll at time 9 with a 5-second timeout — the
session stops with the post-silence outcome at time 9 and captures both
filtered frames. -/
theorem C2_witness :
    classify_frame (fold_events init_state []) (spike bin10 10000) = true ∧
    no_voiced (fold_events init_state ([] ++ Event.frame (spike bin10 10000) 2 :: []))
      (Event.frame zeroSpec 3 :: [Event.poll 9]) = true ∧
    (∃ t a rest, [Event.poll 9] = a ++ Event.poll t :: rest ∧ (5 : ℚ) < t - 3 ∧
      (∀ u, Event.poll u ∈ a → u - 3 ≤ 5) ∧
      run_loop init_state 0 5
          ([] ++ Event.frame (spike bin10 10000) 2 ::
            ([] ++ Event.frame zeroSpec 3 :: [Event.poll 9])) =
        some (.post_silence,
          filter_all (none, 0)
            (frame_mags ([] ++ Event.frame (spike bin10 10000) 2 ::
              ([] ++ Event.frame zeroSpec 3 :: a))), t) ∧
      transcribe_speech ⟨16000, true⟩ 0 5
          ([] ++ Event.frame (spike bin10 10000) 2 ::
            ([] ++ Event.frame zeroSpec 3 :: [Event.poll 9])) =
        .captured
          (filter_all (none, 0)
            (frame_mags ([] ++ Event.frame (spike bin10 10000) 2 ::
              ([] ++ Event.frame zeroSpec 3 :: a))))
          .post_silence) := by
  have hv : classify_frame (fold_events init_state []) (spike bin10 10000) = true :=
    classify_voiced_witness
  have hnv : no_voiced (fold_events init_state ([] ++ Event.frame (spike bin10 10000) 2 :: []))
      (Event.frame zeroSpec 3 :: [Event.poll 9]) = true := by
    rw [show no_voiced (fold_events init_state ([] ++ Event.frame (spike bin10 10000) 2 :: []))
          (Event.frame zeroSpec 3 :: [Event.poll 9])
        = (!(classify_frame (frame_step init_state (spike bin10 10000) 2) zeroSpec) &&
            no_voiced (frame_step (frame_step init_state (spike bin10 10000) 2) zeroSpec 3)
              [Event.poll 9]) from rfl]
    rw [classify_silent_witness]
    rfl
  exact ⟨hv, hnv,
    C2_post_silence_capture [] [] [Event.poll 9] (spike bin10 10000) zeroSpec 2 3 0 5
      ⟨16000, true⟩ rfl rfl hv rfl hnv rfl ⟨9, by simp, by norm_num⟩⟩

/-!
Claims C8 and C5: the empty-capture outcome and the absence of sample-rate
validation.
-/

lemma check_stop_manual_nostart (r : RecState) (start now timeout : ℚ)
    (h1 : r.speech_started = false) (h2 : ¬ timeout < now - start) :
    check_stop r start now timeout true = some .manual := by
  simp [check_stop, h1, h2, silence_timed_out]

lemma transcribe_speech_eq (src : AudioSource) (start timeout : ℚ) (trace : List Event)
    (hopen : src.open_ok = true) :
    transcribe_speech src start timeout trace =
      match run_loop init_state start timeout trace with
      | none => .still_running
      | some (reason, fr, _) =>
        if fr.isEmpty = true then .empty_capture else .captured fr reason := by
  simp only [transcribe_speech, hopen]
  rw [if_neg (by simp)]

/-- Claim C8: whenever the session loop stops with zero frames captured —
in particular on a manual stop before any frame — `transcribe_speech`
returns the "No audio captured" outcome rather than crashing, and a
successful capture is returned only for a non-empty frame sequence. -/
theorem C8_empty_capture (src : AudioSource) (start timeout : ℚ) (trace : List Event)
    (hopen : src.open_ok = true) :
    (∀ reason t, run_loop init_state start timeout trace = some (reason, [], t) →
      transcribe_speech src start timeout trace = .empty_capture) ∧
    (∀ fr reason, transcribe_speech src start timeout trace = .captured fr reason →
      fr ≠ []) := by
  constructor
  · intro reason t h
    rw [transcribe_speech_eq src start timeout trace hopen, h]
    dsimp only
    simp
  · intro fr reason h
    rw [transcribe_speech_eq src start timeout trace hopen] at h
    cases hrun : run_loop init_state start timeout trace with
    | none =>
      rw [hrun] at h
      simp at h
    | some res =>
      rcases res with ⟨r0, fr0, t0⟩
      rw [hrun] at h
      dsimp only at h
      by_cases hemp : fr0.isEmpty = true
      · rw [if_pos hemp] at h
        simp at h
      · rw [if_neg hemp] at h
        have hfr : fr = fr0 := by
          cases h
          rfl
        subst hfr
        intro hnil
        subst hnil
        simp at hemp

/-- Claim C8 witness: Enter pressed at time 1 and a poll at time 2 with no
frame read yet stops the session manually with zero frames, and
`transcribe_speech` returns the empty-capture outcome. -/
theorem C8_witness :
    run_loop init_state 0 5 [Event.enter 1, Event.poll 2] = some (.manual, [], 2) ∧
    transcribe_speech ⟨16000, true⟩ 0 5 [Event.enter 1, Event.poll 2] = .empty_capture := by
  have hrun : run_loop init_state 0 5 [Event.enter 1, Event.poll 2]
      = some (.manual, [], 2) := by
    rw [run_loop_enter]
    exact run_loop_poll_some _ 0 5 2 [] .manual
      (check_stop_manual_nostart _ 0 2 5 rfl (by norm_num))
  exact ⟨hrun,
    (C8_empty_capture ⟨16000, true⟩ 0 5 [Event.enter 1, Event.poll 2] rfl).1 .manual 2 hrun⟩

/-- Claim C5 counterexample: a source whose native rate (8000 Hz) differs
from the configured `RATE` (16000 Hz) but whose stream opens is not rejected:
the session reads and processes a frame and ends as a successful capture of
one filtered frame — there is no `ConfigError` and no fail-fast before the
first frame. -/
theorem C5_counterexample :
    ((8000 : ℚ) ≠ RATE) ∧
    is_captured (transcribe_speech ⟨8000, true⟩ 0 5
      [Event.frame zeroSpec 1, Event.enter 2, Event.poll 3]) = true ∧
    (captured_frames (transcribe_speech ⟨8000, true⟩ 0 5
      [Event.frame zeroSpec 1, Event.enter 2, Event.poll 3])).length = 1 := by
  have hcl : classify_frame init_state zeroSpec = false := by
    show detect_voice (some fun k => zeroSpec k + zeroSpec k) zeroSpec = false
    exact detect_voice_zeroSpec _ (fun k => by simp [zeroSpec])
  have hs1state : (frame_step init_state zeroSpec 1).state = ⟨false, none, none⟩ := by
    rw [(frame_step_state_unvoiced init_state zeroSpec 1 hcl).1]
    exact update_state_unvoiced_nostart _ 1 rfl
  have hrun : run_loop init_state 0 5 [Event.frame zeroSpec 1, Event.enter 2, Event.poll 3]
      = some (.manual, (frame_step init_state zeroSpec 1).frames, 3) := by
    rw [run_loop_frame, run_loop_enter]
    refine run_loop_poll_some _ 0 5 3 [] .manual ?_
    rw [show ({ frame_step init_state zeroSpec 1 with input_received := true }
        : SessState).state = (frame_step init_state zeroSpec 1).state from rfl, hs1state]
    exact check_stop_manual_nostart _ 0 3 5 rfl (by norm_num)
  have hfr : (frame_step init_state zeroSpec 1).frames
      = [apply_noise_filter (some fun k => zeroSpec k + zeroSpec k) zeroSpec] := rfl
  have htr : transcribe_speech ⟨8000, true⟩ 0 5
      [Event.frame zeroSpec 1, Event.enter 2, Event.poll 3]
      = .captured [apply_noise_filter (some fun k => zeroSpec k + zeroSpec k) zeroSpec]
          .manual := by
    rw [transcribe_speech_eq _ 0 5 _ rfl, hrun, hfr]
    dsimp only
    simp
  refine ⟨by norm_num [RATE], ?_, ?_⟩
  · rw [htr]
    rfl
  · rw [htr]
    rfl

/-- Claim C5 (amended): the code performs no sample-rate validation at all —
the session's behaviour is independent of the source's native sample rate
(the code never queries it), and the only start-time failure is the generic
microphone-open error when `pyaudio` fails to open the stream; no
`ConfigError` outcome exists. -/
theorem C5_no_rate_validation (r1 r2 : ℚ) (ok : Bool) (start timeout : ℚ)
    (trace : List Event) :
    transcribe_speech ⟨r1, ok⟩ start timeout trace
      = transcribe_speech ⟨r2, ok⟩ start timeout trace ∧
    (ok = false → transcribe_speech ⟨r1, ok⟩ start timeout trace = .mic_error) := by
  constructor
  · rfl
  · intro h
    subst h
    rfl

/-- Claim C5 witness for the amended statement: sessions on an 8 kHz-rated
and a 16 kHz-rated source behave identically, and a source that fails to
open yields the microphone error. -/
theorem C5_witness :
    transcribe_speech ⟨8000, true⟩ 0 5 [Event.poll 6]
      = transcribe_speech ⟨16000, true⟩ 0 5 [Event.poll 6] ∧
    transcribe_speech ⟨8000, false⟩ 0 5 [Event.poll 6] = .mic_error :=
  ⟨(C5_no_rate_validation 8000 16000 true 0 5 [Event.poll 6]).1,
    (C5_no_rate_validation 8000 16000 false 0 5 [Event.poll 6]).2 rfl⟩
